import Mathlib

/-!
Verification development for the health-guard journal/nudge engine
(`src/server.py`).  Instants are modelled as natural numbers of seconds
since an arbitrary midnight-aligned epoch far from the representable
datetime boundaries; a calendar day is `t / 86400` and the wall-clock
fields are `t / 3600 % 24` hours and `t / 60 % 60` minutes.  Journal
entries are modelled with their timestamp already decoded from the
stored ISO string (the journal writer `_add_entry` always stores
well-formed `_iso` output, and every query re-decodes it with
`_parse`).
-/

namespace HealthGuard

/-- A journal event record (`{"ts": ..., "kind": ..., "note": ...}`).
The `note` field is never consulted by any query, so it is omitted. -/
structure Entry where
  ts : Nat
  kind : String
deriving DecidableEq

/-- A wall-clock time of day, mirroring Python `datetime.time(hour, minute)`
as built by `_hhmm_to_time` (its seconds field is always zero). -/
structure Tod where
  h : Nat
  m : Nat
deriving DecidableEq

/-- Python `time` comparison restricted to hour/minute: lexicographic. -/
def Tod.le (a b : Tod) : Bool :=
  decide (a.h < b.h ∨ (a.h = b.h ∧ a.m ≤ b.m))

/-- Python `s.split(":", 1)` when a colon is present: the text before the
first colon and the text after it.  `none` when `s` has no colon (there
the two-variable unpacking in `_hhmm_to_time` raises and the fallback
fires). -/
def splitFirstColon : List Char → Option (List Char × List Char)
  | [] => none
  | c :: rest =>
    if c = ':' then some ([], rest)
    else
      match splitFirstColon rest with
      | some (a, b) => some (c :: a, b)
      | none => none

/-- Python `int(...)` on the pieces produced by `_hhmm_to_time`: a
nonempty run of decimal digits yields its value, anything else yields
`none` (in the source an exception that the surrounding handler turns
into the fallback; signs and surrounding whitespace, which Python's
`int` would also accept, never lead to a valid `time` for hour/minute
strings of interest and are folded into the failure case). -/
def decDigits? : List Char → Option Nat
  | [] => none
  | l => go l 0
where
  go : List Char → Nat → Option Nat
    | [], acc => some acc
    | c :: rest, acc =>
      if c.isDigit then go rest (acc.mul 10 + (c.toNat - 48)) else none

/-- Python `_hhmm_to_time`: split on the first colon, convert both parts
with `int`, and build `time(h, m)`; any failure (no colon, non-numeric
part, hour or minute out of range for `time`) falls back to
`time(22, 0)`. -/
def hhmmToTime (s : String) : Tod :=
  match splitFirstColon s.data with
  | some (h, m) =>
    match decDigits? h, decDigits? m with
    | some hv, some mv => if hv ≤ 23 ∧ mv ≤ 59 then ⟨hv, mv⟩ else ⟨22, 0⟩
    | _, _ => ⟨22, 0⟩
  | none => ⟨22, 0⟩

/-- The `Preferences` dataclass with its field defaults. -/
structure Preferences where
  timezone : Option String := none
  move_interval_min : Int := 60
  meal_interval_hours : Int := 5
  ideal_sleep_start : String := "22:30"
  quiet_hours_start : String := "22:00"
  quiet_hours_end : String := "07:00"
  sleep_escalate_after_ideal : Bool := true
  sleep_escalate_ignore_quiet_hours : Bool := true
  sleep_escalate_max_hours : Int := 3
deriving DecidableEq

/-- The default preference record. -/
def defaultPrefs : Preferences := {}

/-- Default preferences with the quiet-hour window moved to
03:00-04:00, used to exhibit coexisting sleep and movement/meal
candidates late in the evening. -/
def c1Prefs : Preferences :=
  { defaultPrefs with quiet_hours_start := "03:00", quiet_hours_end := "04:00" }

/-- Core of `_in_quiet_hours` on the extracted time of day `t` and the
two parsed bounds: same-day inclusive window when `start <= stop`,
midnight-spanning containment (`t >= start or t <= stop`) otherwise. -/
def inQuietHoursT (t start stop : Tod) : Bool :=
  if Tod.le start stop then Tod.le start t && Tod.le t stop
  else Tod.le start t || Tod.le t stop

/-- Python `_in_quiet_hours(now, prefs)`: parse both bounds, drop `now`
to `time(now.hour, now.minute)`, and test window membership. -/
def inQuietHours (now : Nat) (prefs : Preferences) : Bool :=
  inQuietHoursT ⟨now / 3600 % 24, now / 60 % 60⟩
    (hhmmToTime prefs.quiet_hours_start) (hhmmToTime prefs.quiet_hours_end)

/-- Python `_last_of(kind, now)`: walk the journal from its end and
return the timestamp of the first entry of `kind` found whose timestamp
is at most `now`; kind-matching entries with a timestamp after `now` are
skipped without stopping the walk. -/
def lastOf (kind : String) (now : Nat) (entries : List Entry) : Option Nat :=
  (entries.reverse.find? (fun e => e.kind == kind && decide (e.ts ≤ now))).map Entry.ts

/-- The entries whose own timestamp falls on calendar day `d`; this is
the bucket `by_day[d]` built by `_days_streak` (dict buckets keep
insertion order, as `filter` does). -/
def dayEntries (entries : List Entry) (d : Nat) : List Entry :=
  entries.filter (fun e => e.ts / 86400 == d)

/-- One backward step of the `_days_streak` loop, with explicit fuel.
The Python loop is `while True` and stops at the first day whose bucket
is absent or fails the predicate; since a run of consecutive non-empty
days starting at `today` is at most as long as the journal,
`entries.length + 1` steps of fuel reproduce the loop exactly (for days
away from day zero of the epoch, where real datetimes live). -/
def daysStreakAux (pred : List Entry → Bool) (entries : List Entry) :
    Nat → Nat → Nat
  | 0, _ => 0
  | fuel + 1, d =>
    if !(dayEntries entries d).isEmpty && pred (dayEntries entries d) then
      1 + daysStreakAux pred entries fuel (d - 1)
    else 0

/-- Python `_days_streak(predicate)`: group entries by the calendar day
of their own timestamp, then walk backward from `today` counting
consecutive days whose bucket exists and satisfies the predicate. -/
def daysStreak (pred : List Entry → Bool) (entries : List Entry)
    (today : Nat) : Nat :=
  daysStreakAux pred entries (entries.length + 1) today

/-- Python `_move_pred`. -/
def movePred (l : List Entry) : Bool := l.any (fun e => e.kind == "move")

/-- Python `_meals_pred`. -/
def mealsPred (l : List Entry) : Bool := l.any (fun e => e.kind == "meal")

/-- Python `_sleep_pred`. -/
def sleepPred (l : List Entry) : Bool :=
  l.any (fun e => e.kind == "sleep_start" || e.kind == "sleep_end")

/-- The `streaks` component of `_status_bundle(now, prefs)`:
`_days_streak` never receives the preferences, and its `today` anchor is
`datetime.now().astimezone().date()` — the machine-local current day,
passed here explicitly as `machineToday`. -/
def streaksOf (machineToday : Nat) (prefs : Preferences)
    (entries : List Entry) : Nat × Nat × Nat :=
  (daysStreak movePred entries machineToday,
   daysStreak mealsPred entries machineToday,
   daysStreak sleepPred entries machineToday)

/-- A nudge dictionary as produced by `_nudge`; absent dictionary keys
are `none`. -/
structure Nudge where
  kind : String
  message : String
  why : String
  minutes_over : Option Int := none
  severity : Option String := none
deriving DecidableEq

/-- Message of the near-ideal sleep nudge. -/
def nearIdealMsg : String :=
  "If not now, when? Start winding down: lights low, screens off. Quality sleep is a longevity lever."

/-- Message of the gentle post-ideal sleep nudge. -/
def sleepGentleMsg : String :=
  "Past bedtime already — planning to out-stare the clock? Wind down. Chronic sleep debt shortens healthspan."

/-- Message of the firm post-ideal sleep nudge. -/
def sleepFirmMsg : String :=
  "Still up? Wrap it and head to bed; doomscrolling won’t help. Protect your future self."

/-- Message of the strong post-ideal sleep nudge. -/
def sleepStrongMsg : String :=
  "Well past bedtime. You’re not beating sleep — lights off. Consistent late nights chip away at longevity."

/-- Message of the overdue-movement nudge. -/
def moveOverdueMsg : String :=
  "Been sitting a while, huh? Take 2–5 minutes to move. Long sitting raises disease risk — not great for lifespan."

/-- Message of the first-movement nudge. -/
def moveFirstMsg : String :=
  "A quick stretch won’t ruin your day. Try one? Small wins add up to a longer, healthier life."

/-- Message of the overdue-meal nudge. -/
def mealOverdueMsg : String :=
  "Running on fumes again? Grab something balanced. Under-fueling today, underperforming health tomorrow."

/-- Message of the first-meal nudge. -/
def mealFirstMsg : String :=
  "Skipping meals isn’t a productivity hack. Eat — consistent nutrition supports longevity."

/-- The neutral result returned when no candidate is eligible. -/
def noNudge : Nudge :=
  { kind := "none"
    message := "All good — keep stacking small habits. Small daily choices shape long-term healthspan."
    why := "no_nudge_needed_or_quiet_hours" }

/-- Python `now.replace(hour=ideal.hour, minute=ideal.minute, second=0,
microsecond=0)`: the ideal sleep instant placed on the calendar day of
`now`. -/
def idealDt (now : Nat) (prefs : Preferences) : Nat :=
  now / 86400 * 86400 + (hhmmToTime prefs.ideal_sleep_start).h * 3600 +
    (hhmmToTime prefs.ideal_sleep_start).m * 60

/-- The sleep readiness / escalation block of `_nudge` (lines 313-347):
the near-ideal window is 45 minutes before to 30 minutes after the ideal
instant (inclusive); past that window, escalation applies when enabled —
respecting quiet hours unless configured to ignore them — with severity
gentle / firm / strong as `minutes_over` is at most 30 / at most 90 /
larger.  The window test `window_start <= now` is natural-number
truncated here, which only matters within 45 minutes of the epoch
origin, unreachable for real datetimes. -/
def sleepNudgeOf (now : Nat) (prefs : Preferences) (quiet : Bool) :
    Option Nudge :=
  if idealDt now prefs - 2700 ≤ now ∧ now ≤ idealDt now prefs + 1800 then
    some { kind := "sleep", message := nearIdealMsg,
           why := "near_ideal_sleep_time", severity := some "gentle" }
  else if idealDt now prefs < now ∧ prefs.sleep_escalate_after_ideal = true then
    if quiet = false ∨ prefs.sleep_escalate_ignore_quiet_hours = true then
      some { kind := "sleep"
             message :=
               if (((now - idealDt now prefs) / 60 : Nat) : Int) ≤ 30 then
                 sleepGentleMsg
               else if (((now - idealDt now prefs) / 60 : Nat) : Int) ≤ 90 then
                 sleepFirmMsg
               else sleepStrongMsg
             why := "past_ideal_sleep_time"
             minutes_over := some (((now - idealDt now prefs) / 60 : Nat) : Int)
             severity := some
               (if (((now - idealDt now prefs) / 60 : Nat) : Int) ≤ 30 then
                 "gentle"
               else if (((now - idealDt now prefs) / 60 : Nat) : Int) ≤ 90 then
                 "firm"
               else "strong") }
    else none
  else none

/-- Python `move_overdue_min`: minutes elapsed since the last movement
event at or before `now` (floor of seconds over 60), minus the movement
interval; `none` when no such event exists. -/
def moveOverdueMin (now : Nat) (prefs : Preferences)
    (entries : List Entry) : Option Int :=
  (lastOf "move" now entries).map
    (fun lm => (((now - lm) / 60 : Nat) : Int) - prefs.move_interval_min)

/-- Python `meal_overdue_min`: minutes elapsed since the last meal event
at or before `now`, minus the meal interval converted to minutes. -/
def mealOverdueMin (now : Nat) (prefs : Preferences)
    (entries : List Entry) : Option Int :=
  (lastOf "meal" now entries).map
    (fun lm => (((now - lm) / 60 : Nat) : Int) - prefs.meal_interval_hours * 60)

/-- The movement block of the candidate build in `_nudge`: an overdue
candidate scored by its overdue minutes when those are non-negative, a
score-zero first-movement candidate when nothing is logged, nothing
otherwise. -/
def moveCandidates (now : Nat) (prefs : Preferences)
    (entries : List Entry) : List (Int × Nudge) :=
  match moveOverdueMin now prefs entries with
  | some m =>
    if 0 ≤ m then
      [(m, { kind := "move", message := moveOverdueMsg,
             why := "no_recent_movement" })]
    else []
  | none =>
    [(0, { kind := "move", message := moveFirstMsg,
           why := "no_movement_logged" })]

/-- The meal block of the candidate build in `_nudge`. -/
def mealCandidates (now : Nat) (prefs : Preferences)
    (entries : List Entry) : List (Int × Nudge) :=
  match mealOverdueMin now prefs entries with
  | some m =>
    if 0 ≤ m then
      [(m, { kind := "meal", message := mealOverdueMsg,
             why := "long_since_last_meal" })]
    else []
  | none =>
    [(0, { kind := "meal", message := mealFirstMsg,
           why := "no_meal_logged" })]

/-- The movement and meal candidates, in their evaluation order, all
suppressed during quiet hours. -/
def mmCandidates (now : Nat) (prefs : Preferences)
    (entries : List Entry) : List (Int × Nudge) :=
  if inQuietHours now prefs then []
  else moveCandidates now prefs entries ++ mealCandidates now prefs entries

/-- The full candidate list of `_nudge`: movement, then meal, then — if
a sleep nudge exists and quiet hours do not suppress it — the sleep
candidate with weight `10000`, increased by `minutes_over` when the
nudge is a past-ideal escalation. -/
def candidatesOf (now : Nat) (prefs : Preferences)
    (entries : List Entry) : List (Int × Nudge) :=
  mmCandidates now prefs entries ++
    (match sleepNudgeOf now prefs (inQuietHours now prefs) with
     | some sn =>
       if inQuietHours now prefs = false ∨
           prefs.sleep_escalate_ignore_quiet_hours = true then
         [(10000 + (if sn.why = "past_ideal_sleep_time"
             then sn.minutes_over.getD 0 else 0), sn)]
       else []
     | none => [])

/-- Stable descending insertion: an element moves past exactly the
strictly smaller scores, as Python's stable `sort(reverse=True)` does. -/
def insertDesc (x : Int × Nudge) : List (Int × Nudge) → List (Int × Nudge)
  | [] => [x]
  | y :: ys => if y.1 ≤ x.1 then x :: y :: ys else y :: insertDesc x ys

/-- Python `candidates.sort(key=lambda x: x[0], reverse=True)`: a stable
sort by descending score. -/
def sortDesc (l : List (Int × Nudge)) : List (Int × Nudge) :=
  l.foldr insertDesc []

/-- Modelled from the spec: the selection rule in its own words — the
highest-scoring candidate, ties broken in favor of the first-considered
one. -/
def firstMax : List (Int × Nudge) → Option (Int × Nudge)
  | [] => none
  | x :: t =>
    match firstMax t with
    | none => some x
    | some b => if x.1 < b.1 then some b else some x

/-- Python `_nudge(now, prefs)` over a journal: build the candidate
list, return the neutral result when it is empty, otherwise the first
entry of the descending stable sort. -/
def nudge (now : Nat) (prefs : Preferences) (entries : List Entry) :
    Nudge :=
  if (candidatesOf now prefs entries).isEmpty then noNudge
  else ((sortDesc (candidatesOf now prefs entries)).headD
    ((0 : Int), noNudge)).2

/-- A parsed datetime value: its own wall-clock reading in seconds and
its zone offset, `none` when the value is naive. -/
structure Dt where
  wall : Nat
  tz : Option Int
deriving DecidableEq

/-- Outcome of the external `datetime.fromisoformat` call inside
`_parse`: either a parsed value (with or without a zone offset) or a
raised exception. -/
inductive IsoParse where
  | ok (wall : Nat) (tz : Option Int)
  | fail
deriving DecidableEq

/-- Python `_parse(dt)`: on success, a naive result is interpreted in
the local zone (`parsed.astimezone()` keeps the wall-clock reading and
attaches the local offset `localOff`), an aware result is returned
unchanged; on any parse exception the current instant `nowDt` is
returned instead of an error. -/
def parse (r : IsoParse) (localOff : Int) (nowDt : Dt) : Dt :=
  match r with
  | .ok w tz =>
    match tz with
    | none => { wall := w, tz := some localOff }
    | some o => { wall := w, tz := some o }
  | .fail => nowDt

/-- The `PreferencesUpdate` model: every field independently optional. -/
structure PreferencesUpdate where
  timezone : Option String := none
  move_interval_min : Option Int := none
  meal_interval_hours : Option Int := none
  ideal_sleep_start : Option String := none
  quiet_hours_start : Option String := none
  quiet_hours_end : Option String := none
  sleep_escalate_after_ideal : Option Bool := none
  sleep_escalate_ignore_quiet_hours : Option Bool := none
  sleep_escalate_max_hours : Option Int := none
deriving DecidableEq

/-- The merge loop of `update_preferences`: `setattr(prefs, k, v)` for
every field present in the update (`exclude_none`), with no range or
format check anywhere. -/
def applyUpdate (p : Preferences) (u : PreferencesUpdate) : Preferences :=
  { timezone := match u.timezone with
      | some z => some z
      | none => p.timezone
    move_interval_min := u.move_interval_min.getD p.move_interval_min
    meal_interval_hours := u.meal_interval_hours.getD p.meal_interval_hours
    ideal_sleep_start := u.ideal_sleep_start.getD p.ideal_sleep_start
    quiet_hours_start := u.quiet_hours_start.getD p.quiet_hours_start
    quiet_hours_end := u.quiet_hours_end.getD p.quiet_hours_end
    sleep_escalate_after_ideal :=
      u.sleep_escalate_after_ideal.getD p.sleep_escalate_after_ideal
    sleep_escalate_ignore_quiet_hours :=
      u.sleep_escalate_ignore_quiet_hours.getD p.sleep_escalate_ignore_quiet_hours
    sleep_escalate_max_hours :=
      u.sleep_escalate_max_hours.getD p.sleep_escalate_max_hours }

/-- Whether the update supplies at least one field (`changed` nonempty
in the source), which is what gates the `prefs.save()` call. -/
def hasChange (u : PreferencesUpdate) : Bool :=
  u.timezone.isSome || u.move_interval_min.isSome ||
  u.meal_interval_hours.isSome || u.ideal_sleep_start.isSome ||
  u.quiet_hours_start.isSome || u.quiet_hours_end.isSome ||
  u.sleep_escalate_after_ideal.isSome ||
  u.sleep_escalate_ignore_quiet_hours.isSome ||
  u.sleep_escalate_max_hours.isSome

/-- Result of the `health_guard_update_preferences` tool: the `ok` flag,
the merged preference record it reports, and what (if anything) was
persisted. -/
structure UpdateResult where
  ok : Bool
  prefs : Preferences
  saved : Option Preferences
deriving DecidableEq

/-- Python `update_preferences(payload)` over a loaded preference
record: merge all supplied fields unchecked, persist exactly when at
least one field was supplied, and answer `ok = True`. -/
def update_preferences (p : Preferences) (u : PreferencesUpdate) :
    UpdateResult :=
  let merged := applyUpdate p u
  { ok := true
    prefs := merged
    saved := if hasChange u then some merged else none }

/-- Lexicographic hour/minute comparison agrees with minute-of-day
comparison once minutes are in range. -/
theorem tod_le_iff (a b : Tod) (ha : a.m < 60) (hb : b.m < 60) :
    Tod.le a b = true ↔ a.h * 60 + a.m ≤ b.h * 60 + b.m := by
  simp only [Tod.le, decide_eq_true_eq]
  omega

/-- Hour and minute extraction reassembles into the minute of the day. -/
theorem minuteOfDay_decompose (t : Nat) :
    (t / 3600 % 24) * 60 + t / 60 % 60 = t / 60 % 1440 := by
  omega

/-- The head of a descending stable insertion. -/
theorem head_insertDesc (x : Int × Nudge) (l : List (Int × Nudge)) :
    (insertDesc x l).head? =
      some (match l with
            | [] => x
            | y :: _ => if y.1 ≤ x.1 then x else y) := by
  cases l with
  | nil => rfl
  | cons y ys =>
    by_cases h : y.1 ≤ x.1 <;> simp [insertDesc, h]

/-- The first element of the stable descending sort is the
first-considered candidate of maximal score. -/
theorem sortDesc_head (l : List (Int × Nudge)) :
    (sortDesc l).head? = firstMax l := by
  induction l with
  | nil => rfl
  | cons x t ih =>
    show (insertDesc x (sortDesc t)).head? = firstMax (x :: t)
    rw [head_insertDesc]
    cases hs : sortDesc t with
    | nil =>
      have hft : firstMax t = none := by rw [← ih, hs]; rfl
      show some x = firstMax (x :: t)
      rw [show firstMax (x :: t) = (match firstMax t with
        | none => some x
        | some b => if x.1 < b.1 then some b else some x) from rfl, hft]
    | cons y ys =>
      have hft : firstMax t = some y := by rw [← ih, hs]; rfl
      show some (if y.1 ≤ x.1 then x else y) = firstMax (x :: t)
      rw [show firstMax (x :: t) = (match firstMax t with
        | none => some x
        | some b => if x.1 < b.1 then some b else some x) from rfl, hft]
      show some (if y.1 ≤ x.1 then x else y) =
        (if x.1 < y.1 then some y else some x)
      by_cases h : y.1 ≤ x.1
      · rw [if_pos h, if_neg (by omega : ¬ x.1 < y.1)]
      · rw [if_neg h, if_pos (by omega : x.1 < y.1)]

/-- A `firstMax` result on the empty list only. -/
theorem firstMax_eq_none {l : List (Int × Nudge)}
    (h : firstMax l = none) : l = [] := by
  cases l with
  | nil => rfl
  | cons a t =>
    have hh : (match firstMax t with
      | none => some a
      | some b => if a.1 < b.1 then some b else some a) = none := h
    cases hm : firstMax t with
    | none => rw [hm] at hh; cases hh
    | some b =>
      rw [hm] at hh
      replace hh : (if a.1 < b.1 then some b else some a) = none := hh
      by_cases hc : a.1 < b.1
      · rw [if_pos hc] at hh; cases hh
      · rw [if_neg hc] at hh; cases hh

/-- A `firstMax` result belongs to the list and bounds every score. -/
theorem firstMax_spec (l : List (Int × Nudge)) (x : Int × Nudge)
    (h : firstMax l = some x) : x ∈ l ∧ ∀ y ∈ l, y.1 ≤ x.1 := by
  induction l generalizing x with
  | nil => cases h
  | cons a t ih =>
    have hh : (match firstMax t with
      | none => some a
      | some b => if a.1 < b.1 then some b else some a) = some x := h
    cases hm : firstMax t with
    | none =>
      rw [hm] at hh
      cases hh
      have ht : t = [] := firstMax_eq_none hm
      subst ht
      refine ⟨List.mem_cons_self _ _, ?_⟩
      intro y hy
      rcases List.mem_cons.mp hy with rfl | hy
      · exact le_refl _
      · cases hy
    | some b =>
      rw [hm] at hh
      replace hh : (if a.1 < b.1 then some b else some a) = some x := hh
      obtain ⟨hmem, hall⟩ := ih b hm
      by_cases hc : a.1 < b.1
      · rw [if_pos hc] at hh
        cases hh
        refine ⟨List.mem_cons_of_mem _ hmem, ?_⟩
        intro y hy
        rcases List.mem_cons.mp hy with rfl | hy
        · omega
        · exact hall y hy
      · rw [if_neg hc] at hh
        cases hh
        refine ⟨List.mem_cons_self _ _, ?_⟩
        intro y hy
        rcases List.mem_cons.mp hy with rfl | hy
        · exact le_refl _
        · exact le_trans (hall y hy) (by omega)

/-- When the appended last candidate strictly dominates every earlier
score, it is the selected one. -/
theorem firstMax_append_last (l : List (Int × Nudge)) (x : Int × Nudge)
    (h : ∀ y ∈ l, y.1 < x.1) : firstMax (l ++ [x]) = some x := by
  induction l with
  | nil => rfl
  | cons a t ih =>
    have ht : firstMax (t ++ [x]) = some x :=
      ih (fun y hy => h y (List.mem_cons_of_mem _ hy))
    have ha : a.1 < x.1 := h a (List.mem_cons_self _ _)
    show (match firstMax (t ++ [x]) with
      | none => some a
      | some b => if a.1 < b.1 then some b else some a) = some x
    rw [ht]
    show (if a.1 < x.1 then some x else some a) = some x
    rw [if_pos ha]

/-- The default never surfaces from `headD` when a head exists. -/
theorem headD_of_head? {α : Type} (l : List α) (a d : α)
    (h : l.head? = some a) : l.headD d = a := by
  cases l with
  | nil => cases h
  | cons b t => cases h; rfl

/-- Two distinct members force length at least two. -/
theorem two_le_length_of_mem {α : Type} {l : List α} {a b : α}
    (ha : a ∈ l) (hb : b ∈ l) (hab : a ≠ b) : 2 ≤ l.length := by
  cases l with
  | nil => cases ha
  | cons x t =>
    cases t with
    | nil =>
      rcases List.mem_singleton.mp ha with rfl
      rcases List.mem_singleton.mp hb with rfl
      exact absurd rfl hab
    | cons y s => simp only [List.length_cons]; omega

/-- C4: `inQuietHours` compares only the hour and minute of the day: for
valid HH:MM bounds, a window with `start <= end` contains exactly the
minutes of day between the two bounds inclusive, and a window with
`start > end` spans midnight, containing the minutes at or after the
start or at or before the end; so `[08:00, 08:00]` contains exactly
08:00, and with `start=22:00, end=06:00` both 23:30 and 05:30 are inside
while 12:00 is outside. -/
theorem claim_C4_quiet_hours :
    (∀ (t : Nat) (s e : Tod), s.m < 60 → e.m < 60 →
      (inQuietHoursT ⟨t / 3600 % 24, t / 60 % 60⟩ s e = true ↔
        (if s.h * 60 + s.m ≤ e.h * 60 + e.m then
          s.h * 60 + s.m ≤ t / 60 % 1440 ∧ t / 60 % 1440 ≤ e.h * 60 + e.m
        else
          s.h * 60 + s.m ≤ t / 60 % 1440 ∨ t / 60 % 1440 ≤ e.h * 60 + e.m))) ∧
    (∀ t : Nat,
      inQuietHoursT ⟨t / 3600 % 24, t / 60 % 60⟩ ⟨8, 0⟩ ⟨8, 0⟩ = true ↔
        t / 60 % 1440 = 480) ∧
    inQuietHoursT ⟨23, 30⟩ ⟨22, 0⟩ ⟨6, 0⟩ = true ∧
    inQuietHoursT ⟨5, 30⟩ ⟨22, 0⟩ ⟨6, 0⟩ = true ∧
    inQuietHoursT ⟨12, 0⟩ ⟨22, 0⟩ ⟨6, 0⟩ = false := by
  have main : ∀ (t : Nat) (s e : Tod), s.m < 60 → e.m < 60 →
      (inQuietHoursT ⟨t / 3600 % 24, t / 60 % 60⟩ s e = true ↔
        (if s.h * 60 + s.m ≤ e.h * 60 + e.m then
          s.h * 60 + s.m ≤ t / 60 % 1440 ∧ t / 60 % 1440 ≤ e.h * 60 + e.m
        else
          s.h * 60 + s.m ≤ t / 60 % 1440 ∨ t / 60 % 1440 ≤ e.h * 60 + e.m)) := by
    intro t s e hs he
    have hm : (t / 60 % 60) < 60 := Nat.mod_lt _ (by omega)
    have hdec := minuteOfDay_decompose t
    unfold inQuietHoursT
    by_cases hse : Tod.le s e = true
    · rw [if_pos hse]
      rw [tod_le_iff s e hs he] at hse
      rw [if_pos hse]
      rw [Bool.and_eq_true, tod_le_iff s ⟨t / 3600 % 24, t / 60 % 60⟩ hs hm,
        tod_le_iff ⟨t / 3600 % 24, t / 60 % 60⟩ e hm he]
      simp only
      omega
    · rw [if_neg hse]
      rw [Bool.not_eq_true] at hse
      have hse' : ¬ (s.h * 60 + s.m ≤ e.h * 60 + e.m) := by
        intro hc
        rw [(tod_le_iff s e hs he).mpr hc] at hse
        cases hse
      rw [if_neg hse']
      rw [Bool.or_eq_true, tod_le_iff s ⟨t / 3600 % 24, t / 60 % 60⟩ hs hm,
        tod_le_iff ⟨t / 3600 % 24, t / 60 % 60⟩ e hm he]
      simp only
      omega
  refine ⟨main, ?_, by decide, by decide, by decide⟩
  intro t
  rw [main t ⟨8, 0⟩ ⟨8, 0⟩ (by decide) (by decide)]
  simp only [show ((⟨8, 0⟩ : Tod)).h = 8 from rfl,
    show ((⟨8, 0⟩ : Tod)).m = 0 from rfl]
  rw [if_pos (by omega : (8 : Nat) * 60 + 0 ≤ 8 * 60 + 0)]
  omega

/-- Witness for C4 at a concrete instant: 22:30 is inside the default
midnight-spanning window 22:00-06:00. -/
theorem claim_C4_quiet_hours_witness :
    inQuietHoursT ⟨(81000 : Nat) / 3600 % 24, 81000 / 60 % 60⟩ ⟨22, 0⟩ ⟨6, 0⟩ = true ↔
      (if (22 : Nat) * 60 + 0 ≤ 6 * 60 + 0 then
        22 * 60 + 0 ≤ 81000 / 60 % 1440 ∧ (81000 : Nat) / 60 % 1440 ≤ 6 * 60 + 0
      else
        22 * 60 + 0 ≤ 81000 / 60 % 1440 ∨ (81000 : Nat) / 60 % 1440 ≤ 6 * 60 + 0) :=
  claim_C4_quiet_hours.1 81000 ⟨22, 0⟩ ⟨6, 0⟩ (by decide) (by decide)

/-- C7: `parse` is total and never surfaces an error: a successfully
parsed aware value is returned as is, a successfully parsed naive value
is interpreted in the local zone, and every unparseable input yields the
current instant rather than an error. -/
theorem claim_C7_parse_total (r : IsoParse) (localOff : Int) (nowDt : Dt) :
    (r = .fail → parse r localOff nowDt = nowDt) ∧
    (∀ w, r = .ok w none → parse r localOff nowDt = ⟨w, some localOff⟩) ∧
    (∀ w o, r = .ok w (some o) → parse r localOff nowDt = ⟨w, some o⟩) := by
  refine ⟨?_, ?_, ?_⟩
  · rintro rfl; rfl
  · rintro w rfl; rfl
  · rintro w o rfl; rfl

/-- Witness for C7: a naive parse at wall reading 100 with local offset
540 minutes, and a failure falling back to the current instant. -/
theorem claim_C7_parse_total_witness :
    parse (.ok 100 none) 540 ⟨999, none⟩ = ⟨100, some 540⟩ ∧
    parse .fail 540 ⟨999, none⟩ = ⟨999, none⟩ :=
  ⟨(claim_C7_parse_total (.ok 100 none) 540 ⟨999, none⟩).2.1 100 rfl,
   (claim_C7_parse_total .fail 540 ⟨999, none⟩).1 rfl⟩

/-- C9: preference updates perform no range or format validation: every
supplied value — negative intervals, malformed HH:MM strings included —
is assigned unchanged, unset fields keep their prior value, the
operation answers `ok = true`, and the merged record is persisted
whenever at least one field was supplied. -/
theorem claim_C9_update_unvalidated (p : Preferences) (u : PreferencesUpdate) :
    (update_preferences p u).ok = true ∧
    (∀ v, u.move_interval_min = some v →
      (update_preferences p u).prefs.move_interval_min = v) ∧
    (∀ v, u.meal_interval_hours = some v →
      (update_preferences p u).prefs.meal_interval_hours = v) ∧
    (∀ v, u.sleep_escalate_max_hours = some v →
      (update_preferences p u).prefs.sleep_escalate_max_hours = v) ∧
    (∀ s, u.ideal_sleep_start = some s →
      (update_preferences p u).prefs.ideal_sleep_start = s) ∧
    (∀ s, u.quiet_hours_start = some s →
      (update_preferences p u).prefs.quiet_hours_start = s) ∧
    (∀ s, u.quiet_hours_end = some s →
      (update_preferences p u).prefs.quiet_hours_end = s) ∧
    (u.move_interval_min = none →
      (update_preferences p u).prefs.move_interval_min = p.move_interval_min) ∧
    (hasChange u = true →
      (update_preferences p u).saved = some (update_preferences p u).prefs) := by
  refine ⟨rfl, ?_, ?_, ?_, ?_, ?_, ?_, ?_, ?_⟩
  · rintro v h; simp [update_preferences, applyUpdate, h]
  · rintro v h; simp [update_preferences, applyUpdate, h]
  · rintro v h; simp [update_preferences, applyUpdate, h]
  · rintro s h; simp [update_preferences, applyUpdate, h]
  · rintro s h; simp [update_preferences, applyUpdate, h]
  · rintro s h; simp [update_preferences, applyUpdate, h]
  · rintro h; simp [update_preferences, applyUpdate, h]
  · rintro h; simp [update_preferences, h]

/-- Witness for C9: an update carrying a non-positive movement interval,
a zero meal interval, a negative escalation bound, and malformed HH:MM
strings is accepted verbatim, reported `ok`, and persisted. -/
theorem claim_C9_update_unvalidated_witness :
    (update_preferences defaultPrefs
      { move_interval_min := some (-5), meal_interval_hours := some 0,
        sleep_escalate_max_hours := some (-3),
        ideal_sleep_start := some "99:99", quiet_hours_start := some "oops",
        quiet_hours_end := some ":::" }).ok = true ∧
    (update_preferences defaultPrefs
      { move_interval_min := some (-5), meal_interval_hours := some 0,
        sleep_escalate_max_hours := some (-3),
        ideal_sleep_start := some "99:99", quiet_hours_start := some "oops",
        quiet_hours_end := some ":::" }).prefs.move_interval_min = -5 ∧
    (update_preferences defaultPrefs
      { move_interval_min := some (-5), meal_interval_hours := some 0,
        sleep_escalate_max_hours := some (-3),
        ideal_sleep_start := some "99:99", quiet_hours_start := some "oops",
        quiet_hours_end := some ":::" }).prefs.ideal_sleep_start = "99:99" ∧
    (update_preferences defaultPrefs
      { move_interval_min := some (-5), meal_interval_hours := some 0,
        sleep_escalate_max_hours := some (-3),
        ideal_sleep_start := some "99:99", quiet_hours_start := some "oops",
        quiet_hours_end := some ":::" }).saved =
      some (update_preferences defaultPrefs
        { move_interval_min := some (-5), meal_interval_hours := some 0,
          sleep_escalate_max_hours := some (-3),
          ideal_sleep_start := some "99:99", quiet_hours_start := some "oops",
          quiet_hours_end := some ":::" }).prefs := by
  have h := claim_C9_update_unvalidated defaultPrefs
    { move_interval_min := some (-5), meal_interval_hours := some 0,
      sleep_escalate_max_hours := some (-3),
      ideal_sleep_start := some "99:99", quiet_hours_start := some "oops",
      quiet_hours_end := some ":::" }
  exact ⟨h.1, h.2.1 (-5) rfl, h.2.2.2.2.1 "99:99" rfl, h.2.2.2.2.2.2.2.2 rfl⟩

/-- C10: two preference records that differ only in the timezone field
produce identical streak counts: the streak computation never reads the
preferences, anchoring today to the machine-local day and grouping each
event by the calendar day of its own timestamp. -/
theorem claim_C10_streaks_timezone_independent (machineToday : Nat)
    (p : Preferences) (z : Option String) (entries : List Entry) :
    streaksOf machineToday { p with timezone := z } entries =
      streaksOf machineToday p entries := rfl

/-- C5: the engine returns exactly one nudge — the first element of the
stable descending sort, which is the eligible candidate of highest
score with ties broken in favor of the first-considered candidate (the
build order being movement, meal, sleep).  In particular, on an empty
journal at 09:00 with defaults, the movement and meal candidates both
score zero, no sleep candidate is eligible, and the movement candidate
(reason `no_movement_logged`) is returned. -/
theorem claim_C5_single_highest_first :
    (∀ c : List (Int × Nudge), (sortDesc c).head? = firstMax c) ∧
    (∀ (c : List (Int × Nudge)) (x : Int × Nudge), firstMax c = some x →
      x ∈ c ∧ ∀ y ∈ c, y.1 ≤ x.1) ∧
    candidatesOf 118800 defaultPrefs [] =
      [((0 : Int),
        { kind := "move", message := moveFirstMsg,
          why := "no_movement_logged" }),
       ((0 : Int),
        { kind := "meal", message := mealFirstMsg,
          why := "no_meal_logged" })] ∧
    sleepNudgeOf 118800 defaultPrefs (inQuietHours 118800 defaultPrefs) = none ∧
    nudge 118800 defaultPrefs [] =
      { kind := "move", message := moveFirstMsg, why := "no_movement_logged" } :=
  ⟨sortDesc_head, firstMax_spec, by decide, by decide, by decide⟩

/-- Witness for C5: on a two-candidate list the selected pair is a
member whose score bounds every score. -/
theorem claim_C5_single_highest_first_witness :
    ((2 : Int), noNudge) ∈ [((1 : Int), noNudge), ((2 : Int), noNudge)] ∧
    ∀ y ∈ [((1 : Int), noNudge), ((2 : Int), noNudge)],
      y.1 ≤ ((2 : Int), noNudge).1 :=
  claim_C5_single_highest_first.2.1
    [((1 : Int), noNudge), ((2 : Int), noNudge)] ((2 : Int), noNudge) (by decide)

/-- C8: every instant from 45 minutes before to 30 minutes after the
ideal sleep instant takes the near-ideal branch, so a sleep nudge with
reason `past_ideal_sleep_time` always carries `minutes_over` of at
least 30; its gentle-severity branch is reachable only for instants
strictly between 30 and 31 minutes past ideal, where `minutes_over`
is exactly 30. -/
theorem claim_C8_past_ideal_minutes_over :
    (∀ (now : Nat) (prefs : Preferences) (quiet : Bool),
      idealDt now prefs - 2700 ≤ now → now ≤ idealDt now prefs + 1800 →
      sleepNudgeOf now prefs quiet =
        some { kind := "sleep", message := nearIdealMsg,
               why := "near_ideal_sleep_time", severity := some "gentle" }) ∧
    (∀ (now : Nat) (prefs : Preferences) (quiet : Bool) (n : Nudge),
      sleepNudgeOf now prefs quiet = some n →
      n.why = "past_ideal_sleep_time" →
      (∃ m : Int, n.minutes_over = some m ∧ 30 ≤ m) ∧
      (n.severity = some "gentle" →
        n.minutes_over = some 30 ∧
        idealDt now prefs + 1800 < now ∧ now < idealDt now prefs + 1860)) := by
  constructor
  · intro now prefs quiet h1 h2
    unfold sleepNudgeOf
    rw [if_pos ⟨h1, h2⟩]
  · intro now prefs quiet n hsome hwhy
    unfold sleepNudgeOf at hsome
    by_cases hw : idealDt now prefs - 2700 ≤ now ∧ now ≤ idealDt now prefs + 1800
    · rw [if_pos hw] at hsome
      cases hsome
      exact absurd hwhy (by decide)
    · rw [if_neg hw] at hsome
      by_cases he : idealDt now prefs < now ∧ prefs.sleep_escalate_after_ideal = true
      · rw [if_pos he] at hsome
        by_cases hq : quiet = false ∨ prefs.sleep_escalate_ignore_quiet_hours = true
        · rw [if_pos hq] at hsome
          cases hsome
          have hgt : idealDt now prefs + 1800 < now := by
            rcases he with ⟨hlt, _⟩
            by_contra hcon
            exact hw ⟨by omega, by omega⟩
          constructor
          · exact ⟨(((now - idealDt now prefs) / 60 : Nat) : Int), rfl, by omega⟩
          · intro hsev
            replace hsev :
                (some (if (((now - idealDt now prefs) / 60 : Nat) : Int) ≤ 30
                  then "gentle"
                  else if (((now - idealDt now prefs) / 60 : Nat) : Int) ≤ 90
                  then "firm" else "strong") : Option String) =
                  some "gentle" := hsev
            by_cases h30 : (((now - idealDt now prefs) / 60 : Nat) : Int) ≤ 30
            · refine ⟨?_, hgt, ?_⟩
              · show some (((now - idealDt now prefs) / 60 : Nat) : Int) =
                  some 30
                have : ((now - idealDt now prefs) / 60 : Nat) = 30 := by omega
                rw [this]
                rfl
              · omega
            · rw [if_neg h30] at hsev
              by_cases h90 : (((now - idealDt now prefs) / 60 : Nat) : Int) ≤ 90
              · rw [if_pos h90] at hsev
                exact absurd hsev (by decide)
              · rw [if_neg h90] at hsev
                exact absurd hsev (by decide)
        · rw [if_neg hq] at hsome
          cases hsome
      · rw [if_neg he] at hsome
        cases hsome

/-- Witness for C8: at exactly the ideal instant the near-ideal branch
fires, and thirty and a half minutes past ideal the gentle escalation
carries `minutes_over = 30`. -/
theorem claim_C8_past_ideal_minutes_over_witness :
    sleepNudgeOf 167400 defaultPrefs true =
      some { kind := "sleep", message := nearIdealMsg,
             why := "near_ideal_sleep_time", severity := some "gentle" } ∧
    (∃ m : Int,
      ({ kind := "sleep", message := sleepGentleMsg,
         why := "past_ideal_sleep_time", minutes_over := some 30,
         severity := some "gentle" } : Nudge).minutes_over = some m ∧
        30 ≤ m) :=
  ⟨claim_C8_past_ideal_minutes_over.1 167400 defaultPrefs true
      (by decide) (by decide),
   (claim_C8_past_ideal_minutes_over.2 169230 defaultPrefs true
      { kind := "sleep", message := sleepGentleMsg,
        why := "past_ideal_sleep_time", minutes_over := some 30,
        severity := some "gentle" } (by decide) rfl).1⟩

/-- Counterexample to C1 as stated: with quiet hours moved to
03:00-04:00 and everything else at defaults, at 23:31 on day 8 the
sleep escalation is at the OverdueFirm tier (61 minutes past ideal,
candidate score 10061), yet a movement candidate overdue by 12871
minutes outranks it and the engine returns the movement nudge. -/
theorem claim_C1_counterexample :
    sleepNudgeOf 775860 c1Prefs (inQuietHours 775860 c1Prefs) =
      some { kind := "sleep", message := sleepFirmMsg,
             why := "past_ideal_sleep_time", minutes_over := some 61,
             severity := some "firm" } ∧
    (31 : Int) ≤ 61 ∧ (61 : Int) ≤ 90 ∧
    nudge 775860 c1Prefs [⟨0, "move"⟩] =
      { kind := "move", message := moveOverdueMsg,
        why := "no_recent_movement" } :=
  ⟨by decide, by decide, by decide, by decide⟩

/-- C1 amended: a sleep-escalation candidate at the OverdueFirm tier
(31-90 minutes past ideal) outranks every movement or meal candidate
whose overdue-minute score stays below the fixed base weight 10000 plus
its minutes past ideal — in particular, any movement or meal overdue by
at most one week — but not candidates overdue beyond that bound. -/
theorem claim_C1_amended (now : Nat) (prefs : Preferences)
    (entries : List Entry) (sn : Nudge) (mo : Int)
    (hs : sleepNudgeOf now prefs (inQuietHours now prefs) = some sn)
    (hwhy : sn.why = "past_ideal_sleep_time")
    (hmo : sn.minutes_over = some mo)
    (h31 : 31 ≤ mo) (h90 : mo ≤ 90)
    (hq : inQuietHours now prefs = false ∨
      prefs.sleep_escalate_ignore_quiet_hours = true)
    (hall : ∀ c ∈ mmCandidates now prefs entries, c.1 < 10000 + mo) :
    nudge now prefs entries = sn := by
  have hc : candidatesOf now prefs entries =
      mmCandidates now prefs entries ++ [(10000 + mo, sn)] := by
    unfold candidatesOf
    rw [hs]
    show mmCandidates now prefs entries ++
      (if inQuietHours now prefs = false ∨
          prefs.sleep_escalate_ignore_quiet_hours = true then
        [(10000 + (if sn.why = "past_ideal_sleep_time"
            then sn.minutes_over.getD 0 else 0), sn)]
      else []) = _
    rw [if_pos hq, if_pos hwhy, hmo, Option.getD_some]
  have hfm : firstMax (candidatesOf now prefs entries) =
      some (10000 + mo, sn) := by
    rw [hc]
    exact firstMax_append_last _ _ hall
  have hhead : (sortDesc (candidatesOf now prefs entries)).head? =
      some (10000 + mo, sn) := by rw [sortDesc_head]; exact hfm
  have hne : ¬ ((candidatesOf now prefs entries).isEmpty = true) := by
    rw [hc]
    simp [List.isEmpty_iff]
  unfold nudge
  rw [if_neg hne, headD_of_head? _ _ _ hhead]

/-- Witness for C1 amended: on day 8 at 23:31 with quiet hours
03:00-04:00, a movement logged two hours earlier (overdue 60 minutes)
and no meal logged, the firm sleep escalation wins. -/
theorem claim_C1_amended_witness :
    nudge 775860 c1Prefs [⟨768660, "move"⟩] =
      { kind := "sleep", message := sleepFirmMsg,
        why := "past_ideal_sleep_time", minutes_over := some 61,
        severity := some "firm" } :=
  claim_C1_amended 775860 c1Prefs [⟨768660, "move"⟩]
    { kind := "sleep", message := sleepFirmMsg,
      why := "past_ideal_sleep_time", minutes_over := some 61,
      severity := some "firm" } 61
    (by decide) rfl rfl (by decide) (by decide) (by decide) (by decide)

/-- Counterexample to C3 as stated: at exactly 40 minutes past the
ideal sleep instant with default preferences, the escalation severity
is firm (the 31-90 minute tier), not gentle. -/
theorem claim_C3_counterexample :
    nudge 169800 defaultPrefs [] =
      { kind := "sleep", message := sleepFirmMsg,
        why := "past_ideal_sleep_time", minutes_over := some 40,
        severity := some "firm" } ∧
    some "firm" ≠ some "gentle" :=
  ⟨by decide, by decide⟩

/-- C3 amended: with default preferences (so escalation is enabled and
ignores quiet hours), at exactly 40 minutes past the ideal sleep
instant — on any day and over any journal — the engine produces the
sleep nudge of the OverdueFirm tier: severity firm with
`minutes_over = 40`. -/
theorem claim_C3_amended (d : Nat) (entries : List Entry) :
    nudge (86400 * d + 83400) defaultPrefs entries =
      { kind := "sleep", message := sleepFirmMsg,
        why := "past_ideal_sleep_time", minutes_over := some 40,
        severity := some "firm" } := by
  have f2 : (86400 * d + 83400) / 3600 % 24 = 23 := by omega
  have f3 : (86400 * d + 83400) / 60 % 60 = 10 := by omega
  have hq : inQuietHours (86400 * d + 83400) defaultPrefs = true := by
    unfold inQuietHours
    rw [f2, f3]
    decide
  have hidt : idealDt (86400 * d + 83400) defaultPrefs = 86400 * d + 81000 := by
    unfold idealDt
    rw [show hhmmToTime defaultPrefs.ideal_sleep_start = ⟨22, 30⟩ from by decide]
    show (86400 * d + 83400) / 86400 * 86400 + 22 * 3600 + 30 * 60 = _
    omega
  have hsleep : sleepNudgeOf (86400 * d + 83400) defaultPrefs true =
      some { kind := "sleep", message := sleepFirmMsg,
             why := "past_ideal_sleep_time", minutes_over := some 40,
             severity := some "firm" } := by
    unfold sleepNudgeOf
    rw [hidt]
    rw [if_neg (by omega : ¬ (86400 * d + 81000 - 2700 ≤ 86400 * d + 83400 ∧
      86400 * d + 83400 ≤ 86400 * d + 81000 + 1800))]
    rw [if_pos (⟨by omega, by decide⟩ :
      86400 * d + 81000 < 86400 * d + 83400 ∧
        defaultPrefs.sleep_escalate_after_ideal = true)]
    rw [show 86400 * d + 83400 - (86400 * d + 81000) = 2400 from by omega]
    decide
  have hmm : mmCandidates (86400 * d + 83400) defaultPrefs entries = [] := by
    unfold mmCandidates
    rw [if_pos hq]
  have hc : candidatesOf (86400 * d + 83400) defaultPrefs entries =
      [((10000 + 40 : Int),
        { kind := "sleep", message := sleepFirmMsg,
          why := "past_ideal_sleep_time", minutes_over := some 40,
          severity := some "firm" })] := by
    unfold candidatesOf
    rw [hmm, hq, hsleep]
    decide
  unfold nudge
  rw [hc]
  decide

/-- In a backward scan whose kind-matching entries are descending in
timestamp, the first hit at or before `now` bounds every other
kind-matching timestamp at or before `now`. -/
theorem find_le_upper (k : String) (now : Nat) :
    ∀ (r : List Entry) (e0 : Entry),
      List.Pairwise (fun a b : Entry => b.ts ≤ a.ts)
        (r.filter (fun e => e.kind == k)) →
      r.find? (fun e => e.kind == k && decide (e.ts ≤ now)) = some e0 →
      ∀ e ∈ r, e.kind = k → e.ts ≤ now → e.ts ≤ e0.ts := by
  intro r
  induction r with
  | nil => intro e0 _ h; cases h
  | cons a t ih =>
    intro e0 hpw hfind e hmem hk hle
    by_cases hpa : (a.kind == k && decide (a.ts ≤ now)) = true
    · rw [show ((a :: t).find? (fun e => e.kind == k && decide (e.ts ≤ now)))
          = some a from List.find?_cons_of_pos _ hpa] at hfind
      cases hfind
      have hak : (a.kind == k) = true := by
        rw [Bool.and_eq_true] at hpa
        exact hpa.1
      rcases List.mem_cons.mp hmem with rfl | hmem'
      · exact le_refl _
      · rw [show ((a :: t).filter (fun e => e.kind == k))
            = a :: t.filter (fun e => e.kind == k) from
            List.filter_cons_of_pos hak] at hpw
        exact (List.pairwise_cons.mp hpw).1 e
          (List.mem_filter.mpr ⟨hmem', by simp [hk]⟩)
    · rw [show ((a :: t).find? (fun e => e.kind == k && decide (e.ts ≤ now)))
          = t.find? (fun e => e.kind == k && decide (e.ts ≤ now)) from
          List.find?_cons_of_neg _ hpa] at hfind
      by_cases hak : (a.kind == k) = true
      · rw [show ((a :: t).filter (fun e => e.kind == k))
            = a :: t.filter (fun e => e.kind == k) from
            List.filter_cons_of_pos hak] at hpw
        rcases List.mem_cons.mp hmem with rfl | hmem'
        · exact absurd (by simp [hak, hle]) hpa
        · exact ih e0 (List.pairwise_cons.mp hpw).2 hfind e hmem' hk hle
      · rw [show ((a :: t).filter (fun e => e.kind == k))
            = t.filter (fun e => e.kind == k) from
            List.filter_cons_of_neg hak] at hpw
        rcases List.mem_cons.mp hmem with rfl | hmem'
        · exact absurd (by simp [hk]) hak
        · exact ih e0 hpw hfind e hmem' hk hle

/-- Counterexample to C2 as stated: in a journal whose two `move`
events were inserted out of chronological order, the backward scan
stops at the last-inserted event (timestamp 5) even though an earlier
inserted event of the same kind has the larger timestamp 10, also at
or before the query instant 20. -/
theorem claim_C2_counterexample :
    lastOf "move" 20 [⟨10, "move"⟩, ⟨5, "move"⟩] = some 5 ∧
    (⟨10, "move"⟩ : Entry) ∈ [(⟨10, "move"⟩ : Entry), ⟨5, "move"⟩] ∧
    (10 : Nat) ≤ 20 ∧ (5 : Nat) < 10 :=
  ⟨by decide, by decide, by decide, by decide⟩

/-- C2 amended: `lastOf` returns the timestamp of the most recently
inserted event of the kind whose timestamp is at most `atOrBefore`
(`none` when every event of the kind lies strictly after it, so future
events are always ignored); when the journal's events of that kind
appear in chronological insertion order, that timestamp is the maximal
one at most `atOrBefore`. -/
theorem claim_C2_amended :
    (∀ (k : String) (now : Nat) (entries : List Entry) (t : Nat),
      lastOf k now entries = some t →
      ∃ e ∈ entries, e.kind = k ∧ e.ts = t ∧ t ≤ now) ∧
    (∀ (k : String) (now : Nat) (entries : List Entry),
      lastOf k now entries = none →
      ∀ e ∈ entries, e.kind = k → now < e.ts) ∧
    (∀ (k : String) (now : Nat) (entries : List Entry) (t : Nat),
      List.Pairwise (fun a b : Entry => a.ts ≤ b.ts)
        (entries.filter (fun e => e.kind == k)) →
      lastOf k now entries = some t →
      ∀ e ∈ entries, e.kind = k → e.ts ≤ now → e.ts ≤ t) := by
  refine ⟨?_, ?_, ?_⟩
  · intro k now entries t h
    unfold lastOf at h
    obtain ⟨e0, hfind, hts⟩ := Option.map_eq_some'.mp h
    have hp := List.find?_some hfind
    have hmem := List.mem_reverse.mp (List.mem_of_find?_eq_some hfind)
    rw [Bool.and_eq_true] at hp
    rcases hp with ⟨hk, hle⟩
    exact ⟨e0, hmem, beq_iff_eq.mp hk, hts, hts ▸ of_decide_eq_true hle⟩
  · intro k now entries h e hmem hk
    unfold lastOf at h
    have hfind := Option.map_eq_none'.mp h
    have := List.find?_eq_none.mp hfind e (List.mem_reverse.mpr hmem)
    by_contra hcon
    exact this (by simp [hk]; omega)
  · intro k now entries t hsorted h e hmem hk hle
    unfold lastOf at h
    obtain ⟨e0, hfind, hts⟩ := Option.map_eq_some'.mp h
    have hpw : List.Pairwise (fun a b : Entry => b.ts ≤ a.ts)
        (entries.reverse.filter (fun e => e.kind == k)) := by
      rw [List.filter_reverse]
      exact List.pairwise_reverse.mpr hsorted
    have := find_le_upper k now entries.reverse e0 hpw hfind e
      (List.mem_reverse.mpr hmem) hk hle
    omega

/-- Witness for C2 amended: on a chronologically ordered journal the
scan returns the maximal timestamp at or before the query instant,
bounding the other event's timestamp. -/
theorem claim_C2_amended_witness :
    lastOf "move" 20 [⟨5, "move"⟩, ⟨10, "move"⟩] = some 10 ∧
    (5 : Nat) ≤ 10 :=
  ⟨by decide,
   claim_C2_amended.2.2 "move" 20 [⟨5, "move"⟩, ⟨10, "move"⟩] 10
     (by decide) (by decide) ⟨5, "move"⟩ (by decide) rfl (by decide)⟩

/-- C6: in a journal whose events of a category fall only on the
calendar days D, D-1 and D-3 (none on D-2), with the category present
on D and on D-1, the streak computed by walking backward from day D
equals 2. -/
theorem claim_C6_streak (k : String) (D : Nat) (entries : List Entry)
    (e1 e2 : Entry) (hD : 3 ≤ D)
    (h1m : e1 ∈ entries) (h1k : e1.kind = k) (h1d : e1.ts / 86400 = D)
    (h2m : e2 ∈ entries) (h2k : e2.kind = k) (h2d : e2.ts / 86400 = D - 1)
    (honly : ∀ e ∈ entries, e.kind = k →
      e.ts / 86400 = D ∨ e.ts / 86400 = D - 1 ∨ e.ts / 86400 = D - 3) :
    daysStreak (fun l => l.any (fun e => e.kind == k)) entries D = 2 := by
  have hne : e1 ≠ e2 := by
    intro hcon
    rw [hcon] at h1d
    omega
  have hlen : 2 ≤ entries.length := two_le_length_of_mem h1m h2m hne
  have hday : ∀ (e : Entry) (d : Nat), e ∈ entries → e.ts / 86400 = d →
      e ∈ dayEntries entries d := by
    intro e d hm hd
    exact List.mem_filter.mpr ⟨hm, by simp [hd]⟩
  have hcond : ∀ (e : Entry) (d : Nat), e ∈ entries → e.kind = k →
      e.ts / 86400 = d →
      (!(dayEntries entries d).isEmpty &&
        (dayEntries entries d).any (fun x => x.kind == k)) = true := by
    intro e d hm hkk hd
    have hmem := hday e d hm hd
    rw [Bool.and_eq_true]
    refine ⟨?_, ?_⟩
    · have hne' : dayEntries entries d ≠ [] := List.ne_nil_of_mem hmem
      simp [List.isEmpty_iff, hne']
    · exact List.any_eq_true.mpr ⟨e, hmem, by simp [hkk]⟩
  have hstop : ∀ fuel,
      daysStreakAux (fun l => l.any (fun e => e.kind == k)) entries fuel
        (D - 2) = 0 := by
    intro fuel
    cases fuel with
    | zero => rfl
    | succ g =>
      have hnone : (dayEntries entries (D - 2)).any
          (fun e => e.kind == k) = false := by
        by_contra hcon
        rw [Bool.not_eq_false] at hcon
        obtain ⟨e, hein, hek⟩ := List.any_eq_true.mp hcon
        obtain ⟨hem, hcondx⟩ := List.mem_filter.mp hein
        have hed : e.ts / 86400 = D - 2 := beq_iff_eq.mp hcondx
        have hkk : e.kind = k := beq_iff_eq.mp hek
        rcases honly e hem hkk with h | h | h <;> omega
      rw [daysStreakAux]
      rw [if_neg (by simp [hnone])]
  obtain ⟨f, hf⟩ : ∃ f, entries.length + 1 = f + 3 := ⟨entries.length - 2, by omega⟩
  unfold daysStreak
  rw [hf]
  show daysStreakAux (fun l => l.any (fun e => e.kind == k)) entries
    ((f + 2) + 1) D = 2
  rw [daysStreakAux, if_pos (hcond e1 D h1m h1k h1d)]
  show 1 + daysStreakAux (fun l => l.any (fun e => e.kind == k)) entries
    ((f + 1) + 1) (D - 1) = 2
  rw [daysStreakAux, if_pos (hcond e2 (D - 1) h2m h2k h2d)]
  rw [show D - 1 - 1 = D - 2 from by omega]
  rw [hstop (f + 1)]

/-- Witness for C6: three `move` events on days 3, 2 and 0 (day 1
missing) give a streak of 2 from day 3. -/
theorem claim_C6_streak_witness :
    daysStreak (fun l => l.any (fun e => e.kind == "move"))
      [⟨259200, "move"⟩, ⟨172800, "move"⟩, ⟨0, "move"⟩] 3 = 2 :=
  claim_C6_streak "move" 3 [⟨259200, "move"⟩, ⟨172800, "move"⟩, ⟨0, "move"⟩]
    ⟨259200, "move"⟩ ⟨172800, "move"⟩ (by decide) (by decide) rfl (by decide)
    (by decide) rfl (by decide) (by decide)

end HealthGuard
